import Mathlib

/-!
Verification of the commit-reveal giveaway core (`GiveawayForm.tsx` /
`WakuRandomness`-style `selectWinner`) against its natural-language
specification.  The TypeScript sources are shallowly embedded: machine
integers are `Nat` with explicit `% 2^32`, JavaScript's `undefined` is
`Option.none`, and an exception escaping a handler is an explicit
`HandlerResult.threw` value.  The browser builtin `crypto.subtle.digest
('SHA-256', ·)` is embedded as an executable SHA-256 over byte lists,
and `TextEncoder().encode` as UTF-8 encoding.
-/

/-! ## Bytes and hex rendering -/

/-- The sixteen lowercase hex digit characters, as produced by
JavaScript's `b.toString(16)` for `b < 16`. -/
def hexDigits : List Char := "0123456789abcdef".data

/-- The hex digit character for a value (values `≥ 16` never occur on
digest bytes; the default keeps the function total). -/
def hexDigit (n : Nat) : Char := hexDigits.getD n '0'

/-- Whether a character is a lowercase hex digit.  (JavaScript's
`parseInt(·, 16)` also accepts uppercase digits, but every digest this
program parses is rendered lowercase, so the distinction never shows.) -/
def isHexDig (c : Char) : Bool := hexDigits.contains c

/-- Numeric value of a hex digit character. -/
def hexVal (c : Char) : Nat := hexDigits.indexOf c

/-- Rendering per `hashArray.map(b => b.toString(16).padStart(2, '0')).join('')` for a
byte list: two lowercase hex characters per byte. -/
def bytesToHexChars : List Nat → List Char
  | [] => []
  | b :: bs => hexDigit (b / 16) :: hexDigit (b % 16) :: bytesToHexChars bs

/-- Hex rendering of a byte list as a `String`. -/
def bytesToHex (bs : List Nat) : String := ⟨bytesToHexChars bs⟩

/-! ## UTF-8 encoding (`TextEncoder().encode`) -/

/-- UTF-8 encoding of a single Unicode code point. -/
def utf8EncodeChar (c : Char) : List Nat :=
  let n := c.toNat
  if n < 128 then [n]
  else if n < 2048 then [192 + n / 64, 128 + n % 64]
  else if n < 65536 then [224 + n / 4096, 128 + n / 64 % 64, 128 + n % 64]
  else [240 + n / 262144, 128 + n / 4096 % 64, 128 + n / 64 % 64, 128 + n % 64]

/-- Concatenation of a list of byte lists. -/
def concatBytes : List (List Nat) → List Nat
  | [] => []
  | l :: ls => l ++ concatBytes ls

/-- Embeds `new TextEncoder().encode(s)`: the UTF-8 bytes of a string. -/
def utf8Encode (s : String) : List Nat := concatBytes (s.data.map utf8EncodeChar)

/-! ## SHA-256 (`crypto.subtle.digest('SHA-256', ·)`) -/

/-- Constant `2^32`, the word modulus of SHA-256. -/
def M32 : Nat := 4294967296

/-- Rotate a 32-bit word right by `n` bits. -/
def rotr32 (n x : Nat) : Nat := (x >>> n ||| x <<< (32 - n)) % M32

/-- SHA-256 `Ch(x,y,z)`; `~x` on 32 bits is `2^32 - 1 - x` for `x < 2^32`. -/
def ch32 (u v w : Nat) : Nat := (u &&& v) ^^^ ((M32 - 1 - u) &&& w)

/-- SHA-256 `Maj(x,y,z)`. -/
def maj32 (u v w : Nat) : Nat := (u &&& v) ^^^ (v &&& w) ^^^ (u &&& w)

/-- SHA-256 big Σ₀. -/
def bsig0 (x : Nat) : Nat := rotr32 2 x ^^^ rotr32 13 x ^^^ rotr32 22 x

/-- SHA-256 big Σ₁. -/
def bsig1 (x : Nat) : Nat := rotr32 6 x ^^^ rotr32 11 x ^^^ rotr32 25 x

/-- SHA-256 small σ₀. -/
def ssig0 (x : Nat) : Nat := rotr32 7 x ^^^ rotr32 18 x ^^^ (x >>> 3)

/-- SHA-256 small σ₁. -/
def ssig1 (x : Nat) : Nat := rotr32 17 x ^^^ rotr32 19 x ^^^ (x >>> 10)

/-- The 64 SHA-256 round constants of FIPS 180-4, as decimal `Nat`
literals. -/
def sha256K : List Nat :=
  [1116352408, 1899447441, 3049323471, 3921009573, 961987163,
   1508970993, 2453635748, 2870763221, 3624381080, 310598401,
   607225278, 1426881987, 1925078388, 2162078206, 2614888103,
   3248222580, 3835390401, 4022224774, 264347078, 604807628,
   770255983, 1249150122, 1555081692, 1996064986, 2554220882,
   2821834349, 2952996808, 3210313671, 3336571891, 3584528711,
   113926993, 338241895, 666307205, 773529912, 1294757372,
   1396182291, 1695183700, 1986661051, 2177026350, 2456956037,
   2730485921, 2820302411, 3259730800, 3345764771, 3516065817,
   3600352804, 4094571909, 275423344, 430227734, 506948616,
   659060556, 883997877, 958139571, 1322822218, 1537002063,
   1747873779, 1955562222, 2024104815, 2227730452, 2361852424,
   2428436474, 2756734187, 3204031479, 3329325298]

/-- SHA-256 working state: eight 32-bit words. -/
structure Hash8 where
  a : Nat
  b : Nat
  c : Nat
  d : Nat
  e : Nat
  f : Nat
  g : Nat
  h : Nat
deriving Repr, DecidableEq

/-- The SHA-256 initial hash value (FIPS 180-4), as decimal `Nat`
literals. -/
def sha256Init : Hash8 :=
  ⟨1779033703, 3144134277, 1013904242, 2773480762,
   1359893119, 2600822924, 528734635, 1541459225⟩

/-- One SHA-256 compression round: absorb `k + w`. -/
def sha256Round (st : Hash8) (kw : Nat) : Hash8 :=
  let t1 := (st.h + bsig1 st.e + ch32 st.e st.f st.g + kw) % M32
  let t2 := (bsig0 st.a + maj32 st.a st.b st.c) % M32
  ⟨(t1 + t2) % M32, st.a, st.b, st.c, (st.d + t1) % M32, st.e, st.f, st.g⟩

/-- Big-endian 32-bit words from a 64-byte block. -/
def blockWords (block : List Nat) : List Nat :=
  (List.range 16).map fun i =>
    block.getD (4*i) 0 * 16777216 + block.getD (4*i+1) 0 * 65536 +
    block.getD (4*i+2) 0 * 256 + block.getD (4*i+3) 0

/-- Extend the 16 message words to the full 64-word schedule
(`fuel` counts the 48 remaining words). -/
def extendWords : Nat → List Nat → List Nat
  | 0, ws => ws
  | n+1, ws =>
    let t := ws.length
    extendWords n (ws ++ [(ssig1 (ws.getD (t-2) 0) + ws.getD (t-7) 0 +
                           ssig0 (ws.getD (t-15) 0) + ws.getD (t-16) 0) % M32])

/-- Process one 64-byte block into the running hash value. -/
def sha256Block (hv : Hash8) (block : List Nat) : Hash8 :=
  let ws := extendWords 48 (blockWords block)
  let st := ((sha256K.zip ws).map fun p => (p.1 + p.2) % M32).foldl sha256Round hv
  ⟨(hv.a + st.a) % M32, (hv.b + st.b) % M32, (hv.c + st.c) % M32, (hv.d + st.d) % M32,
   (hv.e + st.e) % M32, (hv.f + st.f) % M32, (hv.g + st.g) % M32, (hv.h + st.h) % M32⟩

/-- The eight big-endian bytes of a 64-bit length field. -/
def lenBytes8 (n : Nat) : List Nat :=
  [n / 72057594037927936 % 256, n / 281474976710656 % 256, n / 1099511627776 % 256,
   n / 4294967296 % 256, n / 16777216 % 256, n / 65536 % 256, n / 256 % 256, n % 256]

/-- SHA-256 padding: append `0x80`, zero bytes to 56 mod 64, then the
bit length as a 64-bit big-endian integer. -/
def padMessage (msg : List Nat) : List Nat :=
  msg ++ [128] ++ List.replicate ((64 - (msg.length + 9) % 64) % 64) 0 ++ lenBytes8 (msg.length * 8)

/-- Split a byte list into 64-byte blocks (`fuel` bounds the recursion). -/
def chunks64 : Nat → List Nat → List (List Nat)
  | 0, _ => []
  | _, [] => []
  | n+1, l => l.take 64 :: chunks64 n (l.drop 64)

/-- The four big-endian bytes of a 32-bit word. -/
def wordBytes (w : Nat) : List Nat :=
  [w / 16777216 % 256, w / 65536 % 256, w / 256 % 256, w % 256]

/-- The 32 digest bytes of a final hash state. -/
def hashBytes (hv : Hash8) : List Nat :=
  wordBytes hv.a ++ wordBytes hv.b ++ wordBytes hv.c ++ wordBytes hv.d ++
  wordBytes hv.e ++ wordBytes hv.f ++ wordBytes hv.g ++ wordBytes hv.h

/-- SHA-256 of a byte list, as 32 bytes. -/
def sha256 (msg : List Nat) : List Nat :=
  hashBytes ((chunks64 (msg.length + 9) (padMessage msg)).foldl sha256Block sha256Init)

/-! ## JavaScript-level helpers -/

/-- Embeds `s.slice(0, n)`: the first `n` characters of a string (all strings
this program slices are ASCII, so code units and code points agree). -/
def jsSlice (s : String) (n : Nat) : String := ⟨s.data.take n⟩

/-- Embeds `parseInt(s, 16)`: parse the longest hex-digit prefix; `none`
models the `NaN` returned when no digit is present. -/
def parseIntHex (s : String) : Option Nat :=
  let ds := s.data.takeWhile isHexDig
  if ds.isEmpty then none else some (ds.foldl (fun a c => a * 16 + hexVal c) 0)

/-- JavaScript `%` of an unsigned value: `none` models `NaN`, both as
operand (`NaN % n = NaN`) and as the result of `x % 0`. -/
def jsMod (a : Option Nat) (n : Nat) : Option Nat :=
  match a with
  | none => none
  | some x => if n = 0 then none else some (x % n)

/-- JavaScript `Array.prototype.join` renders an `undefined` element as the empty
string. -/
def joinElem : Option String → String
  | none => ""
  | some s => s

/-- JavaScript truthiness of a possibly-missing string field:
`undefined` and `""` are falsy. -/
def truthy : Option String → Bool
  | none => false
  | some s => s ≠ ""

/-! ## Message and result types -/

/-- Type `CommitMessage` of the `selectWinner` module:
`{ participantId, commitment, timestamp }`. -/
structure CommitMessage where
  participantId : String
  commitment : String
  timestamp : Nat
deriving Repr, DecidableEq

/-- Type `RevealMessage` of the `selectWinner` module:
`{ participantId, secret, timestamp }`. -/
structure RevealMessage where
  participantId : String
  secret : String
  timestamp : Nat
deriving Repr, DecidableEq

/-- Type `Commitment` of `GiveawayForm.tsx`: `{ address, commitment, timestamp }`. -/
structure Commitment where
  address : String
  commitment : String
  timestamp : Nat
deriving Repr, DecidableEq

/-- Type `Reveal` of `GiveawayForm.tsx`: `{ address, secret, timestamp }`. -/
structure Reveal where
  address : String
  secret : String
  timestamp : Nat
deriving Repr, DecidableEq

/-- Type `GiveawayResult` of `App.tsx`.  The TypeScript type declares
`winner : string`, but the selection code can store `undefined` there
(empty participant list), so the embedding uses `Option String`. -/
structure GiveawayResult where
  winner : Option String
  timestamp : Nat
  participants : List String
  randomSeed : String
  verificationHash : String
deriving Repr, DecidableEq

/-! ## Hash helpers of both modules -/

/-- Function `hashSecret` (selectWinner module): lowercase-hex SHA-256 of the
UTF-8 bytes of a string. -/
def hashSecret (secret : String) : String := bytesToHex (sha256 (utf8Encode secret))

/-- Function `generateCommitment` (GiveawayForm): identical digest pipeline. -/
def generateCommitment (secret : String) : String := bytesToHex (sha256 (utf8Encode secret))

/-- Function `hashParticipants(participants, seed)`:
`hash(participants.join('|') + '|' + seed)`. -/
def hashParticipants (participants : List String) (seed : String) : String :=
  hashSecret (String.intercalate "|" participants ++ "|" ++ seed)

/-! ## Verifier -/

/-- Function `verifyReveals(commits, reveals)` of the `selectWinner` module: for
each reveal, `commits.find(c => c.participantId === reveal.participantId)`;
skip if absent; keep the reveal when `hashSecret(reveal.secret)` equals
the found commitment's hash.  Note `find` consults only the *first*
commitment with the sender's id. -/
def verifyReveals (commits : List CommitMessage) (reveals : List RevealMessage) :
    List RevealMessage :=
  reveals.filter fun r =>
    match commits.find? (fun c => c.participantId == r.participantId) with
    | none => false
    | some c => hashSecret r.secret == c.commitment

/-- The reveal-verification loop of `runGiveaway` (GiveawayForm): keep a
reveal when some commitment has *both* the same address and the hash
recomputed from the reveal's secret. -/
def formValidReveals (commitments : List Commitment) (reveals : List Reveal) : List Reveal :=
  reveals.filter fun r =>
    (commitments.find? fun c =>
      c.address == r.address && c.commitment == generateCommitment r.secret).isSome

/-! ## Winner selection, `selectWinner` module -/

/-- Expression `validReveals.map(r => r.secret).join('|')` — the entropy string of
`selectWinner`, joined in arrival order (no canonical sorting). -/
def combinedEntropy (validReveals : List RevealMessage) : String :=
  String.intercalate "|" (validReveals.map (·.secret))

/-- Derivation `finalSeed = hashSecret(combinedEntropy)`. -/
def finalSeedOf (validReveals : List RevealMessage) : String :=
  hashSecret (combinedEntropy validReveals)

/-- Expression `parseInt(participantsHash.slice(0, 8), 16) % participants.length`
for the `selectWinner` module (`none` is JavaScript `NaN`). -/
def winnerIndexOf (participants : List String) (seed : String) : Option Nat :=
  jsMod (parseIntHex (jsSlice (hashParticipants participants seed) 8)) participants.length

/-- Indexing `participants[winnerIndex]` (`none` is `undefined`). -/
def winnerOf (participants : List String) (seed : String) : Option String :=
  (winnerIndexOf participants seed).bind participants.get?

/-- JSON string escaping as performed by `JSON.stringify` (quote,
backslash, and the control characters appearing in practice). -/
def jsonEscapeChar (c : Char) : List Char :=
  if c = '"' then ['\\', '"']
  else if c = '\\' then ['\\', '\\']
  else if c = '\n' then ['\\', 'n']
  else if c = '\r' then ['\\', 'r']
  else if c = '\t' then ['\\', 't']
  else [c]

/-- A JSON string literal for `s`. -/
def jsonStr (s : String) : String :=
  "\"" ++ ⟨(s.data.map jsonEscapeChar).flatten⟩ ++ "\""

/-- Embeds `JSON.stringify` of one `CommitMessage` (field order as declared
and as constructed by the source). -/
def stringifyCommit (c : CommitMessage) : String :=
  "\x7b\"participantId\":" ++ jsonStr c.participantId ++
  ",\"commitment\":" ++ jsonStr c.commitment ++
  ",\"timestamp\":" ++ toString c.timestamp ++ "\x7d"

/-- Embeds `JSON.stringify` of one `RevealMessage`. -/
def stringifyReveal (r : RevealMessage) : String :=
  "\x7b\"participantId\":" ++ jsonStr r.participantId ++
  ",\"secret\":" ++ jsonStr r.secret ++
  ",\"timestamp\":" ++ toString r.timestamp ++ "\x7d"

/-- Embeds `JSON.stringify` of a `CommitMessage[]`. -/
def stringifyCommits (cs : List CommitMessage) : String :=
  "[" ++ String.intercalate "," (cs.map stringifyCommit) ++ "]"

/-- Embeds `JSON.stringify` of a `RevealMessage[]`. -/
def stringifyReveals (rs : List RevealMessage) : String :=
  "[" ++ String.intercalate "," (rs.map stringifyReveal) ++ "]"

/-- Function `generateVerificationHash(participants, winner, seed, organizer,
commits, reveals)`: hash of the `'::'`-joined encoding, with
`Date.now()` threaded in as `now`. -/
def generateVerificationHash (participants : List String) (winner : Option String)
    (seed organizer : String) (commits : List CommitMessage)
    (reveals : List RevealMessage) (now : Nat) : String :=
  hashSecret (String.intercalate "::"
    [String.intercalate "|" participants, joinElem winner, seed, organizer,
     stringifyCommits commits, stringifyReveals reveals, toString now])

/-- The pure tail of `selectWinner` (lines after the two network
phases): from the collected commit and reveal lists, verify reveals,
derive the seed, pick the winner, and assemble the `GiveawayResult`.
`tHash` is the `Date.now()` inside `generateVerificationHash` and
`tResult` the one stored on the result. -/
def selectWinnerCore (participants : List String) (organizerAddress : String)
    (commits : List CommitMessage) (reveals : List RevealMessage)
    (tHash tResult : Nat) : GiveawayResult :=
  let validReveals := verifyReveals commits reveals
  let finalSeed := finalSeedOf validReveals
  let winner := winnerOf participants finalSeed
  { winner := winner
    timestamp := tResult
    participants := participants
    randomSeed := finalSeed
    verificationHash :=
      generateVerificationHash participants winner finalSeed organizerAddress
        commits validReveals tHash }

/-- Function `verifyResult(result, organizerAddress)`: recompute the
participants digest from the published result and compare the
re-derived winner with the stored one.  (`organizerAddress` is unused
by the source body.) -/
def verifyResult (result : GiveawayResult) (organizerAddress : String) : Bool :=
  let participantsHash := hashParticipants result.participants result.randomSeed
  let expectedIndex := jsMod (parseIntHex (jsSlice participantsHash 8)) result.participants.length
  let expectedWinner := expectedIndex.bind result.participants.get?
  expectedWinner == result.winner

/-! ## Winner selection, `runGiveaway` (GiveawayForm) -/

/-- JavaScript `Array.prototype.sort()` under the default comparator
rearranges string elements into lexicographically ascending order;
embedded as insertion sort by `≤` on strings. -/
def sortStrings (l : List String) : List String := l.insertionSort (· ≤ ·)

/-- Expression `validReveals.map(r => r.secret).sort().join('')` — the entropy
string of `runGiveaway`: secrets sorted canonically, joined with no
separator. -/
def formEntropy (validReveals : List Reveal) : String :=
  String.join (sortStrings (validReveals.map (·.secret)))

/-- The pure tail of `runGiveaway` (verification & selection): seed is
the hash of the sorted entropy; the winner index is parsed directly
from the first 8 hex characters of that seed; `verificationHash` is the
very same digest. -/
def runGiveawayCore (participantList : List String) (commitments : List Commitment)
    (reveals : List Reveal) (tResult : Nat) : GiveawayResult :=
  let validReveals := formValidReveals commitments reveals
  let finalHash := generateCommitment (formEntropy validReveals)
  let winnerIndex := jsMod (parseIntHex (jsSlice finalHash 8)) participantList.length
  { winner := winnerIndex.bind participantList.get?
    timestamp := tResult
    participants := participantList
    randomSeed := finalHash
    verificationHash := finalHash }

/-! ## Message ingestion handlers -/

/-- Outcome of running a subscription callback: either the updated
collection, or an exception that escaped the handler. -/
inductive HandlerResult (α : Type) where
  | ok (st : α)
  | threw
deriving Repr, DecidableEq

/-- The commit-topic handler of `runGiveaway` (GiveawayForm lines
98‑105).  `payload` is the outcome of the builtin `JSON.parse` on the
delivered bytes: `some data` on success, `none` when it throws a
`SyntaxError`.  The handler has no `try`/`catch`, so a parse failure
escapes it; a parsed message is appended whenever its address differs
from the local one — no duplicate check. -/
def formCommitHandler (address : String) (commitments : List Commitment)
    (payload : Option Commitment) : HandlerResult (List Commitment) :=
  match payload with
  | none => .threw
  | some data => .ok (if data.address == address then commitments else commitments ++ [data])

/-- The reveal-topic handler of `runGiveaway` (GiveawayForm lines
144‑151), same shape as the commit handler. -/
def formRevealHandler (address : String) (reveals : List Reveal)
    (payload : Option Reveal) : HandlerResult (List Reveal) :=
  match payload with
  | none => .threw
  | some data => .ok (if data.address == address then reveals else reveals ++ [data])

/-- A message of the shared content topic of the `selectWinner` module
as seen after `JSON.parse`: duck-typed, with possibly-absent
`commitment` / `secret` fields. -/
structure WireMsg where
  participantId : String
  commitment : Option String
  secret : Option String
  timestamp : Nat
deriving Repr, DecidableEq

/-- The commit-phase handler of `selectWinner` (lines 432‑447): the
body is wrapped in `try`/`catch`, so a parse failure only drops the
message; a parsed object is kept when `data.commitment && !data.secret`. -/
def selectCommitHandler (commits : List CommitMessage)
    (payload : Option WireMsg) : List CommitMessage :=
  match payload with
  | none => commits
  | some data =>
    if truthy data.commitment && !truthy data.secret then
      commits ++ [⟨data.participantId, data.commitment.getD "", data.timestamp⟩]
    else commits

/-- The reveal-phase handler of `selectWinner` (lines 470‑491): kept
when `data.secret` is truthy; parse failures are caught and dropped. -/
def selectRevealHandler (reveals : List RevealMessage)
    (payload : Option WireMsg) : List RevealMessage :=
  match payload with
  | none => reveals
  | some data =>
    if truthy data.secret then
      reveals ++ [⟨data.participantId, data.secret.getD "", data.timestamp⟩]
    else reveals

/-! ## Spec-side definitions (for refinement comparisons)

These definitions follow the specification's words and are compared
with the definitions embedded from the source. -/

/-- The big-endian unsigned integer given by the first four bytes of a
digest (`firstFourBytesAsUnsignedInt` of the spec, big-endian as
documented in §9). -/
def specFirstFourBE : List Nat → Nat
  | b0 :: b1 :: b2 :: b3 :: _ => ((b0 * 256 + b1) * 256 + b2) * 256 + b3
  | _ => 0

/-- Spec §4.4 step 3: `participantsDigest =
hash(join(participants, "|") + "|" + randomSeed)`, as digest bytes. -/
def specParticipantsDigest (participants : List String) (randomSeed : String) : List Nat :=
  sha256 (utf8Encode (String.intercalate "|" participants ++ "|" ++ randomSeed))

/-- Spec §4.4 step 4: `winnerIndex =
firstFourBytesAsUnsignedInt(participantsDigest) mod participants.length`. -/
def specWinnerIndex (participants : List String) (randomSeed : String) : Nat :=
  specFirstFourBE (specParticipantsDigest participants randomSeed) % participants.length

/-- Spec §4.4 step 6: the canonical encoding of participants, winner,
randomSeed, organizerId, commitments, validReveals and a timestamp
whose digest is the verification hash. -/
def specSummaryEncoding (participants : List String) (winner : Option String)
    (randomSeed organizerId : String) (commitments : List CommitMessage)
    (validReveals : List RevealMessage) (timestamp : Nat) : String :=
  String.intercalate "::"
    [String.intercalate "|" participants, joinElem winner, randomSeed, organizerId,
     stringifyCommits commitments, stringifyReveals validReveals, toString timestamp]

/-! ## Helper lemmas -/

theorem jsMod_none_of_zero (a : Option Nat) : jsMod a 0 = none := by
  cases a <;> simp [jsMod]

theorem isHexDig_hexDigit (n : Nat) : isHexDig (hexDigit n) = true := by
  rcases Nat.lt_or_ge n 16 with h | h
  · interval_cases n <;> decide
  · have hd : hexDigit n = '0' := by
      rw [hexDigit, List.getD_eq_getElem?_getD, List.getElem?_eq_none]
      · rfl
      · simpa [hexDigits] using h
    rw [hd]; decide

theorem hexVal_hexDigit_eq {n : Nat} (hn : n < 16) : hexVal (hexDigit n) = n := by
  interval_cases n <;> decide

/-- Parsing the first 8 hex characters of a rendered byte list yields
the big-endian value of its first four bytes. -/
theorem parseIntHex_take8 (b0 b1 b2 b3 : Nat) (rest : List Nat)
    (h0 : b0 < 256) (h1 : b1 < 256) (h2 : b2 < 256) (h3 : b3 < 256) :
    parseIntHex ⟨(bytesToHexChars (b0 :: b1 :: b2 :: b3 :: rest)).take 8⟩ =
      some (((b0 * 256 + b1) * 256 + b2) * 256 + b3) := by
  have e0 : hexVal (hexDigit (b0 / 16)) = b0 / 16 := hexVal_hexDigit_eq (by omega)
  have e1 : hexVal (hexDigit (b0 % 16)) = b0 % 16 := hexVal_hexDigit_eq (by omega)
  have e2 : hexVal (hexDigit (b1 / 16)) = b1 / 16 := hexVal_hexDigit_eq (by omega)
  have e3 : hexVal (hexDigit (b1 % 16)) = b1 % 16 := hexVal_hexDigit_eq (by omega)
  have e4 : hexVal (hexDigit (b2 / 16)) = b2 / 16 := hexVal_hexDigit_eq (by omega)
  have e5 : hexVal (hexDigit (b2 % 16)) = b2 % 16 := hexVal_hexDigit_eq (by omega)
  have e6 : hexVal (hexDigit (b3 / 16)) = b3 / 16 := hexVal_hexDigit_eq (by omega)
  have e7 : hexVal (hexDigit (b3 % 16)) = b3 % 16 := hexVal_hexDigit_eq (by omega)
  simp [bytesToHexChars, parseIntHex, List.takeWhile, isHexDig_hexDigit,
    e0, e1, e2, e3, e4, e5, e6, e7]
  omega

/-- Every SHA-256 digest starts with four bytes below 256. -/
theorem sha256_shape (msg : List Nat) : ∃ b0 b1 b2 b3 rest,
    sha256 msg = b0 :: b1 :: b2 :: b3 :: rest ∧
      b0 < 256 ∧ b1 < 256 ∧ b2 < 256 ∧ b3 < 256 := by
  refine ⟨_, _, _, _, _, rfl, ?_, ?_, ?_, ?_⟩ <;> exact Nat.mod_lt _ (by omega)

/-- Parsing `parseInt(hexDigest.slice(0, 8), 16)` on a rendered SHA-256 digest
succeeds and returns the big-endian value of the first four digest
bytes. -/
theorem parseIntHex_digest (m : List Nat) :
    parseIntHex (jsSlice (bytesToHex (sha256 m)) 8) = some (specFirstFourBE (sha256 m)) := by
  obtain ⟨b0, b1, b2, b3, rest, hsha, h0, h1, h2, h3⟩ := sha256_shape m
  rw [hsha]
  show parseIntHex ⟨(bytesToHexChars (b0 :: b1 :: b2 :: b3 :: rest)).take 8⟩ = _
  rw [parseIntHex_take8 b0 b1 b2 b3 rest h0 h1 h2 h3]
  rfl

/-- The winner index of the `selectWinner` module equals the spec's
two-step derivation whenever the participant list is non-empty. -/
theorem winnerIndexOf_eq_spec (ps : List String) (seed : String) (h : ps ≠ []) :
    winnerIndexOf ps seed = some (specWinnerIndex ps seed) := by
  have hn : ps.length ≠ 0 := fun he => h (List.length_eq_zero.mp he)
  unfold winnerIndexOf hashParticipants hashSecret
  rw [parseIntHex_digest]
  simp [jsMod, hn, specWinnerIndex, specParticipantsDigest]

/-! ## Claim theorems -/

/-- C1 (amended): in the `selectWinner` module the winner is selected
by the spec's two-step derivation — participants digest
`hash(join(participants, "|") + "|" + randomSeed)`, first four bytes
big-endian modulo the participant count — for every non-empty
participant list; `runGiveaway` instead parses the winner index
directly out of the randomSeed (see the counterexample). -/
theorem selectWinner_follows_two_step_derivation (ps : List String) (org : String)
    (commits : List CommitMessage) (reveals : List RevealMessage) (tHash tResult : Nat)
    (h : ps ≠ []) :
    (selectWinnerCore ps org commits reveals tHash tResult).winner =
      ps.get? (specWinnerIndex ps
        (selectWinnerCore ps org commits reveals tHash tResult).randomSeed) := by
  show winnerOf ps (finalSeedOf (verifyReveals commits reveals)) =
    ps.get? (specWinnerIndex ps (finalSeedOf (verifyReveals commits reveals)))
  unfold winnerOf
  rw [winnerIndexOf_eq_spec ps _ h]
  rfl

/-- Witness for C1's amended theorem at a concrete input. -/
theorem selectWinner_follows_two_step_derivation_witness :
    (selectWinnerCore ["A", "B"] "org" [] [] 0 0).winner =
      (["A", "B"] : List String).get? (specWinnerIndex ["A", "B"]
        (selectWinnerCore ["A", "B"] "org" [] [] 0 0).randomSeed) :=
  selectWinner_follows_two_step_derivation ["A", "B"] "org" [] [] 0 0 (by decide)

/-- C6 (code bug): called with an empty participant list, the
`selectWinner` selection step raises no error at all: it evaluates
`parseInt(...) % 0`, which is `NaN`, indexes the array with it, and
returns a result whose `winner` is `undefined` — contradicting the
spec's demand for an explicit `EmptyParticipants` failure (and the
declared type `winner : string`). -/
theorem selectWinner_empty_participants_silently_undefined (org : String)
    (commits : List CommitMessage) (reveals : List RevealMessage) (tHash tResult : Nat) :
    (selectWinnerCore [] org commits reveals tHash tResult).winner = none := by
  show winnerOf [] (finalSeedOf (verifyReveals commits reveals)) = none
  unfold winnerOf winnerIndexOf
  rw [List.length_nil, jsMod_none_of_zero]
  rfl

/-- C8 (amended): `selectWinner`'s handlers wrap `JSON.parse` in
`try`/`catch`, so a malformed payload is dropped and the collection is
unchanged; `runGiveaway`'s handlers have no `catch`, so the
`SyntaxError` escapes the handler. -/
theorem malformed_payload_handling (st1 : List CommitMessage) (st2 : List RevealMessage)
    (self : String) (st3 : List Commitment) (st4 : List Reveal) :
    selectCommitHandler st1 none = st1 ∧ selectRevealHandler st2 none = st2 ∧
    formCommitHandler self st3 none = .threw ∧ formRevealHandler self st4 none = .threw :=
  ⟨rfl, rfl, rfl, rfl⟩

/-- C8 counterexample: a payload `JSON.parse` rejects makes the
`runGiveaway` commit handler throw instead of leaving the commitment
list unchanged. -/
theorem formCommitHandler_raises_on_malformed :
    formCommitHandler "org" [⟨"B", "h", 1⟩] none = .threw ∧
    formCommitHandler "org" [⟨"B", "h", 1⟩] none ≠ .ok [⟨"B", "h", 1⟩] := by
  constructor
  · rfl
  · decide

/-- C10: `verifyResult` never reads its `organizerAddress` argument, so
verification depends only on the published result. -/
theorem verifyResult_independent_of_organizer (result : GiveawayResult) (o1 o2 : String) :
    verifyResult result o1 = verifyResult result o2 := rfl

/-- C9: for every non-empty participant list, both selection paths
compute a winner index that is a valid position: `selectWinner`'s index
over the participants digest, and `runGiveaway`'s index parsed from its
entropy digest, are `some i` with `i < participants.length`. -/
theorem winnerIndex_always_in_range (ps : List String) (seed entropy : String) (h : ps ≠ []) :
    (∃ i, winnerIndexOf ps seed = some i ∧ i < ps.length) ∧
    (∃ j, jsMod (parseIntHex (jsSlice (generateCommitment entropy) 8)) ps.length = some j ∧
      j < ps.length) := by
  have hpos : 0 < ps.length := List.length_pos.mpr h
  constructor
  · exact ⟨_, winnerIndexOf_eq_spec ps seed h, Nat.mod_lt _ hpos⟩
  · have hn : ps.length ≠ 0 := Nat.pos_iff_ne_zero.mp hpos
    unfold generateCommitment
    rw [parseIntHex_digest]
    refine ⟨specFirstFourBE (sha256 (utf8Encode entropy)) % ps.length, ?_, Nat.mod_lt _ hpos⟩
    simp [jsMod, hn]

/-- Witness for C9 at a concrete input. -/
theorem winnerIndex_always_in_range_witness :
    (∃ i, winnerIndexOf ["A", "B"] "" = some i ∧ i < 2) ∧
    (∃ j, jsMod (parseIntHex (jsSlice (generateCommitment "") 8)) 2 = some j ∧ j < 2) :=
  winnerIndex_always_in_range ["A", "B"] "" "" (by decide)

/-- C7 (amended): a result of `selectWinner` stores as
`verificationHash` the digest of the spec's canonical `'::'`-joined
encoding of participants, winner, randomSeed, organizerId, the commit
set, the valid-reveal set and a timestamp; a result of `runGiveaway`
instead stores the randomSeed itself. -/
theorem verificationHash_contents (ps ps' : List String) (org : String)
    (commits : List CommitMessage) (reveals : List RevealMessage) (tHash tResult : Nat)
    (cs : List Commitment) (rs : List Reveal) (t : Nat) :
    (selectWinnerCore ps org commits reveals tHash tResult).verificationHash =
      hashSecret (specSummaryEncoding ps
        (selectWinnerCore ps org commits reveals tHash tResult).winner
        (selectWinnerCore ps org commits reveals tHash tResult).randomSeed
        org commits (verifyReveals commits reveals) tHash) ∧
    (runGiveawayCore ps' cs rs t).verificationHash = (runGiveawayCore ps' cs rs t).randomSeed :=
  ⟨rfl, rfl⟩

/-- C7 counterexample: a concrete `runGiveaway` result whose
`verificationHash` coincides with its `randomSeed` — not a distinct
digest over winner, organizer, commitments and reveals. -/
theorem runGiveaway_verificationHash_is_seed :
    (runGiveawayCore ["A"] [] [] 0).verificationHash = (runGiveawayCore ["A"] [] [] 0).randomSeed :=
  rfl

/-- C1 counterexample: with three participants and no valid reveals,
`runGiveaway` picks `"C"` (index parsed directly from the randomSeed),
while the spec's two-step derivation over the same participants and the
same randomSeed picks `"A"`. -/
theorem runGiveaway_winner_not_from_participants_digest :
    (runGiveawayCore ["A", "B", "C"] [] [] 0).winner = some "C" ∧
    (["A", "B", "C"] : List String).get? (specWinnerIndex ["A", "B", "C"]
      (runGiveawayCore ["A", "B", "C"] [] [] 0).randomSeed) = some "A" ∧
    (runGiveawayCore ["A", "B", "C"] [] [] 0).winner ≠
      (["A", "B", "C"] : List String).get? (specWinnerIndex ["A", "B", "C"]
        (runGiveawayCore ["A", "B", "C"] [] [] 0).randomSeed) := by
  refine ⟨?_, ?_, ?_⟩ <;> decide

/-- C2: `verifyResult` accepts every result the `selectWinner` pipeline
produces from a non-empty participant list, and rejects the result once
its `winner` field is replaced by any other value. -/
theorem verifyResult_accepts_produced_rejects_tampered (ps : List String) (org : String)
    (commits : List CommitMessage) (reveals : List RevealMessage) (tHash tResult : Nat)
    (o w' : String) (hps : ps ≠ [])
    (hw : some w' ≠ (selectWinnerCore ps org commits reveals tHash tResult).winner) :
    verifyResult (selectWinnerCore ps org commits reveals tHash tResult) o = true ∧
    verifyResult { selectWinnerCore ps org commits reveals tHash tResult with
      winner := some w' } o = false := by
  constructor
  · show (winnerOf ps (finalSeedOf (verifyReveals commits reveals)) ==
      winnerOf ps (finalSeedOf (verifyReveals commits reveals))) = true
    exact beq_self_eq_true _
  · show (winnerOf ps (finalSeedOf (verifyReveals commits reveals)) == some w') = false
    exact beq_eq_false_iff_ne.mpr fun he => hw he.symm

set_option maxRecDepth 40000 in
/-- Witness for C2 at a concrete input: the produced result verifies,
and the same result with winner replaced by `"C"` does not. -/
theorem verifyResult_accepts_produced_rejects_tampered_witness :
    verifyResult (selectWinnerCore ["A", "B"] "org" [] [] 0 0) "o1" = true ∧
    verifyResult { selectWinnerCore ["A", "B"] "org" [] [] 0 0 with
      winner := some "C" } "o1" = false :=
  verifyResult_accepts_produced_rejects_tampered ["A", "B"] "org" [] [] 0 0 "o1" "C"
    (by decide) (by decide)

/-- C3 (amended): `runGiveaway` canonicalizes by sorting the secrets
before hashing, so its randomSeed is invariant under permutation of the
valid reveals; `selectWinner` joins secrets in arrival order and is not
(see the counterexample). -/
theorem formSeed_invariant_under_reveal_permutation (l1 l2 : List Reveal) (hp : l1.Perm l2) :
    generateCommitment (formEntropy l1) = generateCommitment (formEntropy l2) := by
  have he : formEntropy l1 = formEntropy l2 := by
    unfold formEntropy sortStrings
    congr 1
    refine List.eq_of_perm_of_sorted ?_ (List.sorted_insertionSort _ _)
      (List.sorted_insertionSort _ _)
    exact ((List.perm_insertionSort _ _).trans (hp.map _)).trans
      (List.perm_insertionSort _ _).symm
  rw [he]

/-- Witness for C3's amended theorem on two concretely permuted reveal
lists. -/
theorem formSeed_invariant_under_reveal_permutation_witness :
    generateCommitment (formEntropy [⟨"P", "x", 0⟩, ⟨"Q", "y", 0⟩]) =
      generateCommitment (formEntropy [⟨"Q", "y", 0⟩, ⟨"P", "x", 0⟩]) :=
  formSeed_invariant_under_reveal_permutation _ _ (by decide)

/-- C3 counterexample: swapping two valid reveals changes the
`selectWinner` randomSeed — its entropy string is order-dependent
(`"a|b"` versus `"b|a"`). -/
theorem selectWinner_seed_depends_on_reveal_order :
    ([⟨"P", "a", 0⟩, ⟨"Q", "b", 0⟩] : List RevealMessage).Perm
      [⟨"Q", "b", 0⟩, ⟨"P", "a", 0⟩] ∧
    finalSeedOf [⟨"P", "a", 0⟩, ⟨"Q", "b", 0⟩] ≠
      finalSeedOf [⟨"Q", "b", 0⟩, ⟨"P", "a", 0⟩] := by
  constructor
  · decide
  · decide

/-- C4 (amended): `verifyReveals` keeps a reveal iff the *first*
recorded commitment with the same senderId exists and its stored hash
equals the hash recomputed from the reveal's secret; `runGiveaway`'s
verification loop realizes the claim's existential reading, matching on
address and recomputed hash together. -/
theorem validReveal_membership_characterization :
    (∀ (commits : List CommitMessage) (reveals : List RevealMessage) (r : RevealMessage),
      r ∈ verifyReveals commits reveals ↔
        r ∈ reveals ∧ ∃ c, commits.find? (fun c => c.participantId == r.participantId) =
          some c ∧ hashSecret r.secret = c.commitment) ∧
    (∀ (commitments : List Commitment) (reveals : List Reveal) (r : Reveal),
      r ∈ formValidReveals commitments reveals ↔
        r ∈ reveals ∧ ∃ c ∈ commitments, c.address = r.address ∧
          c.commitment = generateCommitment r.secret) := by
  constructor
  · intro commits reveals r
    rw [verifyReveals]
    simp only [List.mem_filter]
    refine and_congr_right fun _ => ?_
    cases hfind : commits.find? (fun c => c.participantId == r.participantId) with
    | none => simp [hfind]
    | some c => simp [hfind, beq_iff_eq]
  · intro commitments reveals r
    rw [formValidReveals]
    simp [List.mem_filter, List.find?_isSome, Bool.and_eq_true, beq_iff_eq]

/-- C4 counterexample: the sender `"A"` has two recorded commitments;
the second one matches the revealed secret `"s"`, so the claim's
existential reading admits the reveal, yet `verifyReveals` rejects it
because `find` stops at the first commitment. -/
theorem verifyReveals_consults_only_first_commitment :
    (∃ c ∈ ([⟨"A", "x", 0⟩, ⟨"A", hashSecret "s", 0⟩] : List CommitMessage),
        c.participantId = "A" ∧ c.commitment = hashSecret "s") ∧
    verifyReveals [⟨"A", "x", 0⟩, ⟨"A", hashSecret "s", 0⟩] [⟨"A", "s", 0⟩] = [] := by
  constructor
  · exact ⟨⟨"A", hashSecret "s", 0⟩, by simp, rfl, rfl⟩
  · decide

/-- C5 (amended): the `runGiveaway` handlers drop only messages whose
address equals the local organizer's; a second commitment or reveal
from an already-recorded remote sender is appended again, so duplicates
are retained rather than ignored. -/
theorem formHandlers_retain_duplicates (self : String) (st : List Commitment)
    (st' : List Reveal) (c : Commitment) (r : Reveal)
    (hc : c.address ≠ self) (hr : r.address ≠ self) :
    formCommitHandler self st (some c) = .ok (st ++ [c]) ∧
    formCommitHandler self (st ++ [c]) (some c) = .ok (st ++ [c] ++ [c]) ∧
    formRevealHandler self st' (some r) = .ok (st' ++ [r]) ∧
    formRevealHandler self (st' ++ [r]) (some r) = .ok (st' ++ [r] ++ [r]) := by
  have hc' : (c.address == self) = false := beq_eq_false_iff_ne.mpr hc
  have hr' : (r.address == self) = false := beq_eq_false_iff_ne.mpr hr
  simp [formCommitHandler, formRevealHandler, hc', hr']

/-- Witness for C5's amended theorem at concrete messages. -/
theorem formHandlers_retain_duplicates_witness :
    formCommitHandler "org" [] (some ⟨"B", "hb", 1⟩) = .ok ([] ++ [⟨"B", "hb", 1⟩]) ∧
    formCommitHandler "org" ([] ++ [⟨"B", "hb", 1⟩]) (some ⟨"B", "hb", 1⟩) =
      .ok ([] ++ [⟨"B", "hb", 1⟩] ++ [⟨"B", "hb", 1⟩]) ∧
    formRevealHandler "org" [] (some ⟨"B", "sb", 2⟩) = .ok ([] ++ [⟨"B", "sb", 2⟩]) ∧
    formRevealHandler "org" ([] ++ [⟨"B", "sb", 2⟩]) (some ⟨"B", "sb", 2⟩) =
      .ok ([] ++ [⟨"B", "sb", 2⟩] ++ [⟨"B", "sb", 2⟩]) :=
  formHandlers_retain_duplicates "org" [] [] ⟨"B", "hb", 1⟩ ⟨"B", "sb", 2⟩
    (by decide) (by decide)

/-- C5 counterexample: a second commitment from the already-recorded
sender `"B"`, carrying a different hash, is appended rather than
ignored — first-seen does not win. -/
theorem formCommitHandler_keeps_second_commitment :
    formCommitHandler "org" [⟨"B", "h1", 1⟩] (some ⟨"B", "h2", 2⟩) =
      .ok [⟨"B", "h1", 1⟩, ⟨"B", "h2", 2⟩] ∧
    formCommitHandler "org" [⟨"B", "h1", 1⟩] (some ⟨"B", "h2", 2⟩) ≠
      .ok [⟨"B", "h1", 1⟩] := by
  constructor
  · decide
  · decide
